import Mathlib

/-!
Shallow embedding of the terminal-emulation core of korzeterm
(src/build.h, class TerminalWidget): the cell grid, cursor, escape-sequence
state machine, SGR attribute handling, UTF-8 byte decoding and the
256-color palette.  Machine integers (C++ int) are modelled as Int,
bytes as Nat in [0, 256), QChar (a UTF-16 code unit) as Nat.
-/

namespace Korzeterm

/-- RGB triple, modelling QColor(r, g, b). -/
structure RGB where
  r : Nat
  g : Nat
  b : Nat
deriving DecidableEq, Repr

/-- One screen cell, modelling struct TermChar (src/build.h:2015).
The character field holds the QChar value, i.e. a UTF-16 code unit. -/
structure TermChar where
  character : Nat
  foreground : RGB
  background : RGB
  bold : Bool
  italic : Bool
  underline : Bool
deriving DecidableEq, Repr

/-- Default-constructed TermChar (src/build.h:2023): space glyph,
foreground (235,219,178), background (40,40,40), all flags off. -/
def TermChar.mkDefault : TermChar :=
  { character := 32
    foreground := ⟨235, 219, 178⟩
    background := ⟨40, 40, 40⟩
    bold := false
    italic := false
    underline := false }

/-- The fixed 16-entry part of the palette (src/build.h:2319-2336). -/
def standardColors : List RGB :=
  [⟨40, 40, 40⟩, ⟨204, 36, 29⟩, ⟨152, 151, 26⟩, ⟨215, 153, 33⟩,
   ⟨69, 133, 136⟩, ⟨177, 98, 134⟩, ⟨104, 157, 106⟩, ⟨168, 153, 132⟩,
   ⟨146, 131, 116⟩, ⟨251, 73, 52⟩, ⟨184, 187, 38⟩, ⟨250, 189, 47⟩,
   ⟨131, 165, 152⟩, ⟨211, 134, 155⟩, ⟨142, 192, 124⟩, ⟨235, 219, 178⟩]

/-- The 216-entry 6x6x6 cube, entries 16-231, built exactly like the
triple loop in initializeColorPalette (src/build.h:2338-2349):
component n maps to 0 when n = 0 and to n * 40 + 55 otherwise. -/
def cubeColors : List RGB :=
  (List.range 6).flatMap (fun r =>
    (List.range 6).flatMap (fun g =>
      (List.range 6).map (fun b =>
        ⟨if r = 0 then 0 else r * 40 + 55,
         if g = 0 then 0 else g * 40 + 55,
         if b = 0 then 0 else b * 40 + 55⟩)))

/-- The 24-entry grayscale ramp, entries 232-255 (src/build.h:2352-2355). -/
def grayColors : List RGB :=
  (List.range 24).map (fun i => ⟨i * 10 + 8, i * 10 + 8, i * 10 + 8⟩)

/-- m_colorPalette after initializeColorPalette (src/build.h:2314). -/
def colorPalette : List RGB :=
  standardColors ++ cubeColors ++ grayColors

/-- Palette lookup m_colorPalette[i] for an in-range index. -/
def paletteAt (i : Nat) : RGB :=
  colorPalette.getD i ⟨0, 0, 0⟩

/-- Palette lookup with a C++ int index (used from processSGR, where the
index has already been checked to lie in [0, 256)). -/
def paletteAtI (i : Int) : RGB :=
  paletteAt i.toNat

/-- Escape-parser states, modelling enum class EscapeState
(src/build.h:2301-2308).  None is named Ground here to avoid clashing
with Option. -/
inductive EscapeState where
  | Ground
  | Escape
  | Bracket
  | Parameter
  | OSC
  | OSCParameter
deriving DecidableEq, Repr

/-- The mutable terminal state of TerminalWidget: grid, cursor,
saved cursor, attribute state, parser state and UTF-8 decoder state
(src/build.h:2964-3000).  The grid is a total function; only cells with
0 <= y < rows and 0 <= x < cols are meaningful. -/
structure TermState where
  rows : Int
  cols : Int
  buffer : Int → Int → TermChar
  cursorX : Int
  cursorY : Int
  savedCursorX : Int
  savedCursorY : Int
  defaultFg : RGB
  defaultBg : RGB
  currentFg : RGB
  currentBg : RGB
  bold : Bool
  italic : Bool
  underline : Bool
  cursorVisible : Bool
  pendingNewline : Bool
  escapeState : EscapeState
  escapeSequence : List Nat
  utf8Remaining : Int
  utf8Buffer : List Nat

/-- qBound(lo, v, hi) = qMax(lo, qMin(hi, v)). -/
def qBound (lo v hi : Int) : Int := max lo (min hi v)

/-- Write one cell of the grid. -/
def setCell (buf : Int → Int → TermChar) (y x : Int) (c : TermChar) :
    Int → Int → TermChar :=
  fun y2 x2 => if y2 = y ∧ x2 = x then c else buf y2 x2

/-- scrollUp (src/build.h:2930): rows 0..rows-2 take the contents of the
row below, the bottom row is cleared to default cells. -/
def scrollUp (s : TermState) : TermState :=
  { s with buffer := fun y x =>
      if 0 ≤ y ∧ y < s.rows - 1 then s.buffer (y + 1) x
      else if y = s.rows - 1 ∧ 0 ≤ x ∧ x < s.cols then TermChar.mkDefault
      else s.buffer y x }

/-- clearScreen(startRow, startCol, endRow, endCol) (src/build.h:2915):
every addressed cell becomes a default TermChar. -/
def clearScreen (s : TermState) (startRow startCol endRow endCol : Int) :
    TermState :=
  { s with buffer := fun y x =>
      if startRow ≤ y ∧ y ≤ endRow ∧
         (if y = startRow then startCol else 0) ≤ x ∧
         x ≤ (if y = endRow then endCol else s.cols - 1) then TermChar.mkDefault
      else s.buffer y x }

/-- clearLine(row, startCol, endCol) (src/build.h:2924). -/
def clearLine (s : TermState) (row startCol endCol : Int) : TermState :=
  { s with buffer := fun y x =>
      if y = row ∧ startCol ≤ x ∧ x ≤ endCol then TermChar.mkDefault
      else s.buffer y x }

/-- resizeBuffer(newRows, newCols) (src/build.h:2393): fresh grid of
default cells, the overlapping top-left rectangle copied from the old
grid, and the cursor clamped into the new bounds. -/
def resizeBuffer (s : TermState) (newRows newCols : Int) : TermState :=
  { s with
    rows := newRows
    cols := newCols
    buffer := fun y x =>
      if 0 ≤ y ∧ y < min s.rows newRows ∧ 0 ≤ x ∧ x < min s.cols newCols then
        s.buffer y x
      else TermChar.mkDefault
    cursorX := min s.cursorX (newCols - 1)
    cursorY := min s.cursorY (newRows - 1) }

/-- The line-feed case of processRegularChar (src/build.h:2610-2628):
a pending newline is swallowed; otherwise the cursor advances one row
(scrolling at the bottom) and the column resets to 0. -/
def lineFeedChar (s : TermState) : TermState :=
  if s.pendingNewline then { s with pendingNewline := false }
  else
    let s1 := { s with pendingNewline := true, cursorY := s.cursorY + 1 }
    let s2 := if s1.cursorY ≥ s1.rows then
        { scrollUp s1 with cursorY := s1.rows - 1 }
      else s1
    { s2 with cursorX := 0 }

/-- The tab case of processRegularChar (src/build.h:2636-2647):
advance to the next multiple-of-8 column, wrapping and scrolling when
that exceeds the row width. -/
def tabChar (s : TermState) : TermState :=
  let s1 := { s with cursorX := ((s.cursorX + 8) / 8) * 8 }
  if s1.cursorX ≥ s1.cols then
    let s2 := { s1 with cursorX := 0, cursorY := s1.cursorY + 1 }
    if s2.cursorY ≥ s2.rows then { scrollUp s2 with cursorY := s2.rows - 1 }
    else s2
  else s1

/-- The printable-character case of processRegularChar
(src/build.h:2653-2677): store the byte with current attributes at the
cursor, advance one column, wrap to the next row (scrolling at the
bottom) when the row overflows. -/
def putPrintable (s : TermState) (c : Nat) : TermState :=
  let cell : TermChar :=
    ⟨c, s.currentFg, s.currentBg, s.bold, s.italic, s.underline⟩
  let s1 := { s with
    pendingNewline := false
    buffer := setCell s.buffer s.cursorY s.cursorX cell
    cursorX := s.cursorX + 1 }
  if s1.cursorX ≥ s1.cols then
    let s2 := { s1 with cursorX := 0, cursorY := s1.cursorY + 1 }
    if s2.cursorY ≥ s2.rows then { scrollUp s2 with cursorY := s2.rows - 1 }
    else s2
  else s1

/-- processRegularChar (src/build.h:2599): the switch over CR, LF, BS,
TAB, BEL and printable characters.  The argument is a byte; the C++
signed-char test c >= 32 is 32 <= c < 128 at byte level. -/
def processRegularChar (s : TermState) (c : Nat) : TermState :=
  if c = 13 then
    { s with cursorX := 0, pendingNewline := false }
  else if c = 10 then lineFeedChar s
  else if c = 8 then
    if s.cursorX > 0 then { s with cursorX := s.cursorX - 1 } else s
  else if c = 9 then tabChar s
  else if c = 7 then s
  else if 32 ≤ c ∧ c < 128 then putPrintable s c
  else s

/-- processSGR (src/build.h:2814): left-to-right walk over the parameter
vector, with 38/48 consuming two (256-color) or four (direct RGB)
lookahead parameters exactly when the C++ guards hold. -/
def processSGR (s : TermState) : List Int → TermState
  | [] => s
  | p :: rest =>
    if p = 0 then
      processSGR { s with currentFg := s.defaultFg, currentBg := s.defaultBg,
                          bold := false, italic := false, underline := false } rest
    else if p = 1 then processSGR { s with bold := true } rest
    else if p = 3 then processSGR { s with italic := true } rest
    else if p = 4 then processSGR { s with underline := true } rest
    else if p = 22 then processSGR { s with bold := false } rest
    else if p = 23 then processSGR { s with italic := false } rest
    else if p = 24 then processSGR { s with underline := false } rest
    else if 30 ≤ p ∧ p ≤ 37 then
      processSGR { s with currentFg := paletteAtI (p - 30) } rest
    else if p = 38 then
      match rest with
      | 5 :: n :: rest2 =>
        processSGR (if 0 ≤ n ∧ n < 256 then { s with currentFg := paletteAtI n }
                    else s) rest2
      | 2 :: r :: g :: b :: rest2 =>
        processSGR { s with currentFg := ⟨r.toNat, g.toNat, b.toNat⟩ } rest2
      | rest3 => processSGR s rest3
    else if p = 39 then processSGR { s with currentFg := s.defaultFg } rest
    else if 40 ≤ p ∧ p ≤ 47 then
      processSGR { s with currentBg := paletteAtI (p - 40) } rest
    else if p = 48 then
      match rest with
      | 5 :: n :: rest2 =>
        processSGR (if 0 ≤ n ∧ n < 256 then { s with currentBg := paletteAtI n }
                    else s) rest2
      | 2 :: r :: g :: b :: rest2 =>
        processSGR { s with currentBg := ⟨r.toNat, g.toNat, b.toNat⟩ } rest2
      | rest3 => processSGR s rest3
    else if p = 49 then processSGR { s with currentBg := s.defaultBg } rest
    else if 90 ≤ p ∧ p ≤ 97 then
      processSGR { s with currentFg := paletteAtI (p - 90 + 8) } rest
    else if 100 ≤ p ∧ p ≤ 107 then
      processSGR { s with currentBg := paletteAtI (p - 100 + 8) } rest
    else processSGR s rest

/-- QString::toInt on a parameter field: all-digit nonempty text parses
to its value, anything else fails and the caller substitutes 0
(src/build.h:2694-2698). -/
def toIntDef (cs : List Nat) : Int :=
  if cs ≠ [] ∧ cs.all (fun c => 48 ≤ c ∧ c ≤ 57) then
    ((cs.foldl (fun acc c => acc * 10 + (c - 48)) 0 : Nat) : Int)
  else 0

/-- Parameter-string parsing in processEscapeSequence
(src/build.h:2681-2703): detect a leading private-mode marker, split the
(cleaned) text on semicolons, parse each field, default to [0]. -/
def parseParams (parameters : List Nat) : Bool × List Int :=
  let privateMode := parameters.head? = some 63 ∨ parameters.head? = some 62
  let cleanParams := if privateMode then parameters.tail else parameters
  let params := (cleanParams.splitOn 59).map toIntDef
  (privateMode, if params.isEmpty then [0] else params)

/-- processEscapeSequence(finalChar, parameters) (src/build.h:2681):
CSI dispatch on the final byte. -/
def processEscapeSequence (s : TermState) (finalChar : Nat)
    (parameters : List Nat) : TermState :=
  let pp := parseParams parameters
  let privateMode := pp.1
  let params := pp.2
  let p0 := params.getD 0 0
  if finalChar = 109 then processSGR s params
  else if finalChar = 72 ∨ finalChar = 102 then
    if params.length ≥ 2 then
      { s with cursorY := qBound 0 (p0 - 1) (s.rows - 1),
               cursorX := qBound 0 (params.getD 1 0 - 1) (s.cols - 1) }
    else { s with cursorX := 0, cursorY := 0 }
  else if finalChar = 65 then
    { s with cursorY := max 0 (s.cursorY - max 1 p0) }
  else if finalChar = 66 then
    { s with cursorY := min (s.rows - 1) (s.cursorY + max 1 p0) }
  else if finalChar = 67 then
    { s with cursorX := min (s.cols - 1) (s.cursorX + max 1 p0) }
  else if finalChar = 68 then
    { s with cursorX := max 0 (s.cursorX - max 1 p0) }
  else if finalChar = 71 then
    { s with cursorX := qBound 0 (p0 - 1) (s.cols - 1) }
  else if finalChar = 74 then
    if p0 = 0 then clearScreen s s.cursorY s.cursorX (s.rows - 1) (s.cols - 1)
    else if p0 = 1 then clearScreen s 0 0 s.cursorY s.cursorX
    else if p0 = 2 ∨ p0 = 3 then clearScreen s 0 0 (s.rows - 1) (s.cols - 1)
    else s
  else if finalChar = 75 then
    if p0 = 0 then clearLine s s.cursorY s.cursorX (s.cols - 1)
    else if p0 = 1 then clearLine s s.cursorY 0 s.cursorX
    else if p0 = 2 then clearLine s s.cursorY 0 (s.cols - 1)
    else s
  else if finalChar = 115 then
    { s with savedCursorX := s.cursorX, savedCursorY := s.cursorY }
  else if finalChar = 117 then
    { s with cursorX := s.savedCursorX, cursorY := s.savedCursorY }
  else if finalChar = 108 ∨ finalChar = 104 then
    if privateMode then
      if params.contains 25 then { s with cursorVisible := finalChar = 104 }
      else s
    else s
  else if finalChar = 100 then
    { s with cursorY := qBound 0 (p0 - 1) (s.rows - 1) }
  else s

/-- processChar (src/build.h:2523): the escape-parser step on one byte. -/
def processChar (s : TermState) (c : Nat) : TermState :=
  match s.escapeState with
  | .Ground =>
    if c = 27 then { s with escapeState := .Escape, escapeSequence := [] }
    else processRegularChar s c
  | .Escape =>
    if c = 91 then { s with escapeState := .Bracket }
    else if c = 93 then { s with escapeState := .OSC, escapeSequence := [] }
    else if c = 37 then s
    else processRegularChar { s with escapeState := .Ground } c
  | .Bracket =>
    if (48 ≤ c ∧ c ≤ 57) ∨ c = 59 ∨ c = 63 ∨ c = 32 ∨ c = 62 then
      { s with escapeSequence := s.escapeSequence ++ [c],
               escapeState := .Parameter }
    else
      { processEscapeSequence s c s.escapeSequence with escapeState := .Ground }
  | .Parameter =>
    if (48 ≤ c ∧ c ≤ 57) ∨ c = 59 ∨ c = 63 ∨ c = 32 ∨ c = 62 ∨ c = 61 then
      { s with escapeSequence := s.escapeSequence ++ [c] }
    else
      { processEscapeSequence s c s.escapeSequence with escapeState := .Ground }
  | .OSC =>
    if 48 ≤ c ∧ c ≤ 57 then { s with escapeSequence := s.escapeSequence ++ [c] }
    else if c = 59 then
      { s with escapeSequence := s.escapeSequence ++ [c],
               escapeState := .OSCParameter }
    else { s with escapeState := .Ground }
  | .OSCParameter =>
    if c = 7 ∨ (c = 92 ∧ s.escapeSequence.getLast? = some 27) then
      { s with escapeState := .Ground }
    else { s with escapeSequence := s.escapeSequence ++ [c] }

/-- First UTF-16 code unit of a Unicode scalar: QString stores the
decoded text in UTF-16, and processUtf8Sequence reads str[0], which for
a supplementary-plane scalar is the high surrogate. -/
def utf16First (u : Nat) : Nat :=
  if u < 0x10000 then u else 0xD800 + (u - 0x10000) / 0x400

/-- The Unicode scalar QString::fromUtf8 decodes from one lead byte plus
its continuation bytes; any malformed, overlong, surrogate or
out-of-range sequence becomes U+FFFD (the replacement character). -/
def utf8DecodeScalar : List Nat → Nat
  | [b0] => if b0 < 0x80 then b0 else 0xFFFD
  | [b0, b1] =>
    if 0xC0 ≤ b0 ∧ b0 ≤ 0xDF ∧ 0x80 ≤ b1 ∧ b1 ≤ 0xBF then
      let u := (b0 - 0xC0) * 0x40 + (b1 - 0x80)
      if 0x80 ≤ u then u else 0xFFFD
    else 0xFFFD
  | [b0, b1, b2] =>
    if 0xE0 ≤ b0 ∧ b0 ≤ 0xEF ∧ 0x80 ≤ b1 ∧ b1 ≤ 0xBF ∧ 0x80 ≤ b2 ∧ b2 ≤ 0xBF then
      let u := (b0 - 0xE0) * 0x1000 + (b1 - 0x80) * 0x40 + (b2 - 0x80)
      if 0x800 ≤ u ∧ ¬(0xD800 ≤ u ∧ u ≤ 0xDFFF) then u else 0xFFFD
    else 0xFFFD
  | [b0, b1, b2, b3] =>
    if 0xF0 ≤ b0 ∧ b0 ≤ 0xF7 ∧ 0x80 ≤ b1 ∧ b1 ≤ 0xBF ∧ 0x80 ≤ b2 ∧ b2 ≤ 0xBF ∧
       0x80 ≤ b3 ∧ b3 ≤ 0xBF then
      let u := (b0 - 0xF0) * 0x40000 + (b1 - 0x80) * 0x1000 +
               (b2 - 0x80) * 0x40 + (b3 - 0x80)
      if 0x10000 ≤ u ∧ u ≤ 0x10FFFF then u else 0xFFFD
    else 0xFFFD
  | _ => 0xFFFD

/-- The wide-character test of processUtf8Sequence (src/build.h:2499-2503)
on the stored 16-bit character value. -/
def isWideB (u : Nat) : Bool :=
  (0x3000 ≤ u ∧ u ≤ 0x9FFF) ∨ (0xAC00 ≤ u ∧ u ≤ 0xD7AF) ∨
  (0xF900 ≤ u ∧ u ≤ 0xFAFF) ∨ (0xFF00 ≤ u ∧ u ≤ 0xFFEF) ∨
  (0x20000 ≤ u ∧ u ≤ 0x2FFFF)

/-- processUtf8Sequence (src/build.h:2475): decode the buffered bytes,
store the first UTF-16 unit with current attributes at the cursor,
advance; for a wide character write a space into the next cell's
character field (only when still inside the row) and advance again;
then wrap, scrolling at the bottom. -/
def processUtf8Sequence (s : TermState) (utf8Bytes : List Nat) : TermState :=
  if utf8Bytes = [] then s
  else
    let ch := utf16First (utf8DecodeScalar utf8Bytes)
    let cell : TermChar :=
      ⟨ch, s.currentFg, s.currentBg, s.bold, s.italic, s.underline⟩
    let s1 := { s with buffer := setCell s.buffer s.cursorY s.cursorX cell,
                       cursorX := s.cursorX + 1 }
    let s2 :=
      if isWideB ch ∧ s1.cursorX < s1.cols then
        { s1 with
          buffer := setCell s1.buffer s1.cursorY s1.cursorX
            { s1.buffer s1.cursorY s1.cursorX with character := 32 },
          cursorX := s1.cursorX + 1 }
      else s1
    if s2.cursorX ≥ s2.cols then
      let s3 := { s2 with cursorX := 0, cursorY := s2.cursorY + 1 }
      if s3.cursorY ≥ s3.rows then { scrollUp s3 with cursorY := s3.rows - 1 }
      else s3
    else s2

/-- One iteration of the processOutput loop body after the pending-UTF-8
check (src/build.h:2447-2468): classify the byte as a lead byte of a
2/3/4-byte sequence, or hand it to processChar. -/
def processOutputByte (s : TermState) (c : Nat) : TermState :=
  if c &&& 0x80 ≠ 0 then
    if c &&& 0xE0 = 0xC0 then { s with utf8Remaining := 1, utf8Buffer := [c] }
    else if c &&& 0xF0 = 0xE0 then { s with utf8Remaining := 2, utf8Buffer := [c] }
    else if c &&& 0xF8 = 0xF0 then { s with utf8Remaining := 3, utf8Buffer := [c] }
    else processChar s c
  else processChar s c

/-- processOutput (src/build.h:2421) over a byte list: continuation
bytes accumulate into the pending sequence (dispatching it when
complete), a non-continuation byte aborts the pending sequence and is
reprocessed, and otherwise bytes are classified by processOutputByte. -/
def processOutput (s : TermState) : List Nat → TermState
  | [] => s
  | c :: restBytes =>
    if s.utf8Remaining > 0 then
      if c &&& 0xC0 = 0x80 then
        let s1 := { s with utf8Buffer := s.utf8Buffer ++ [c],
                           utf8Remaining := s.utf8Remaining - 1 }
        if s1.utf8Remaining = 0 then
          processOutput
            { processUtf8Sequence s1 s1.utf8Buffer with utf8Buffer := [] }
            restBytes
        else processOutput s1 restBytes
      else
        processOutput
          (processOutputByte { s with utf8Remaining := 0, utf8Buffer := [] } c)
          restBytes
    else processOutput (processOutputByte s c) restBytes

/-- The terminal state right after the TerminalWidget constructor
(src/build.h:2036-2097): a 24x80 grid of default cells, cursor and saved
cursor at the origin, default colors (235,219,178) on (40,40,40), all
attribute flags off, parser in Ground state, no pending UTF-8 bytes. -/
def initState : TermState :=
  { rows := 24
    cols := 80
    buffer := fun _ _ => TermChar.mkDefault
    cursorX := 0
    cursorY := 0
    savedCursorX := 0
    savedCursorY := 0
    defaultFg := ⟨235, 219, 178⟩
    defaultBg := ⟨40, 40, 40⟩
    currentFg := ⟨235, 219, 178⟩
    currentBg := ⟨40, 40, 40⟩
    bold := false
    italic := false
    underline := false
    cursorVisible := true
    pendingNewline := false
    escapeState := .Ground
    escapeSequence := []
    utf8Remaining := 0
    utf8Buffer := [] }

/-- Feeding a list of already-decoded bytes one at a time through
processChar. -/
def writeChars (s : TermState) (cs : List Nat) : TermState :=
  cs.foldl processChar s

/-- The standard UTF-8 encoding of a Unicode scalar that needs at least
two bytes (used to quantify over well-formed multi-byte input). -/
def utf8Encode (u : Nat) : List Nat :=
  if u < 0x800 then [0xC0 + u / 0x40, 0x80 + u % 0x40]
  else if u < 0x10000 then
    [0xE0 + u / 0x1000, 0x80 + u / 0x40 % 0x40, 0x80 + u % 0x40]
  else
    [0xF0 + u / 0x40000, 0x80 + u / 0x1000 % 0x40,
     0x80 + u / 0x40 % 0x40, 0x80 + u % 0x40]

/-- Clearing the UTF-8 accumulation state (the effect of aborting a
pending sequence in processOutput, src/build.h:2441-2444). -/
def clearUtf8 (s : TermState) : TermState :=
  { s with utf8Remaining := 0, utf8Buffer := [] }

/-! Helper lemmas shared between the claims. -/

set_option maxRecDepth 4096 in
/-- Byte-mask classification table: the C++ bit tests of processOutput
expressed as ranges, for every byte. -/
lemma byteMaskTable : ∀ b, b < 256 →
    ((b &&& 0x80 ≠ 0) ↔ 0x80 ≤ b) ∧
    ((b &&& 0xC0 = 0x80) ↔ (0x80 ≤ b ∧ b ≤ 0xBF)) ∧
    ((b &&& 0xE0 = 0xC0) ↔ (0xC0 ≤ b ∧ b ≤ 0xDF)) ∧
    ((b &&& 0xF0 = 0xE0) ↔ (0xE0 ≤ b ∧ b ≤ 0xEF)) ∧
    ((b &&& 0xF8 = 0xF0) ↔ (0xF0 ≤ b ∧ b ≤ 0xF7)) := by
  decide

/-- Decoding inverts encoding on every scalar that genuinely needs a
multi-byte sequence. -/
lemma utf8_decode_encode (u : Nat) (h1 : 0x80 ≤ u) (h2 : u ≤ 0x10FFFF)
    (h3 : ¬(0xD800 ≤ u ∧ u ≤ 0xDFFF)) :
    utf8DecodeScalar (utf8Encode u) = u := by
  unfold utf8Encode
  split_ifs with ha hb
  · simp only [utf8DecodeScalar]
    rw [if_pos (by omega)]
    rw [if_pos (by omega)]
    omega
  · simp only [utf8DecodeScalar]
    rw [if_pos (by omega)]
    rw [if_pos (by omega)]
    omega
  · simp only [utf8DecodeScalar]
    rw [if_pos (by omega)]
    rw [if_pos (by omega)]
    omega

/-- C7: the color palette maps every index 0-15 to the fixed 16-color
palette; every index 16-231 to the 6x6x6 cube color whose component for
cube digit n is 0 when n = 0 and 55 + 40*n otherwise; and every index
232+i with i < 24 to the gray (8+10*i, 8+10*i, 8+10*i); in particular
index 16 resolves to (0,0,0), 231 to (255,255,255), 232 to (8,8,8) and
255 to (238,238,238). -/
theorem claim7_palette :
    (∀ i, i < 16 → paletteAt i = standardColors.getD i ⟨0, 0, 0⟩) ∧
    (∀ r, r < 6 → ∀ g, g < 6 → ∀ b, b < 6 →
      paletteAt (16 + 36 * r + 6 * g + b) =
        ⟨if r = 0 then 0 else 55 + 40 * r,
         if g = 0 then 0 else 55 + 40 * g,
         if b = 0 then 0 else 55 + 40 * b⟩) ∧
    (∀ i, i < 24 →
      paletteAt (232 + i) = ⟨8 + 10 * i, 8 + 10 * i, 8 + 10 * i⟩) ∧
    paletteAt 16 = ⟨0, 0, 0⟩ ∧ paletteAt 231 = ⟨255, 255, 255⟩ ∧
    paletteAt 232 = ⟨8, 8, 8⟩ ∧ paletteAt 255 = ⟨238, 238, 238⟩ := by
  refine ⟨?_, ?_, ?_, ?_, ?_, ?_, ?_⟩ <;> decide

/-- Witness for C7: the cube entry for digits (1,2,3) and gray step 5,
via claim7_palette at those concrete indices. -/
theorem claim7_palette_witness :
    paletteAt (16 + 36 * 1 + 6 * 2 + 3) = ⟨95, 135, 175⟩ ∧
    paletteAt (232 + 5) = ⟨58, 58, 58⟩ := by
  have h1 := claim7_palette.2.1 1 (by decide) 2 (by decide) 3 (by decide)
  have h2 := claim7_palette.2.2.1 5 (by decide)
  exact ⟨by simpa using h1, by simpa using h2⟩

/-- C10: SGR 38;5;N (resp. 48;5;N) with N outside [0,256) leaves the
attribute state untouched while still consuming the two lookahead
parameters, so the remaining parameters are interpreted normally — the
run behaves exactly like the run without the three parameters. -/
theorem claim10_extended_color_out_of_range (s : TermState) (n : Int)
    (rest : List Int) (h : ¬(0 ≤ n ∧ n < 256)) :
    processSGR s (38 :: 5 :: n :: rest) = processSGR s rest ∧
    processSGR s (48 :: 5 :: n :: rest) = processSGR s rest := by
  constructor
  · conv_lhs => rw [processSGR]
    rw [if_neg (by decide), if_neg (by decide), if_neg (by decide),
        if_neg (by decide), if_neg (by decide), if_neg (by decide),
        if_neg (by decide), if_neg (by decide), if_pos (by decide)]
    rw [if_neg h]
  · conv_lhs => rw [processSGR]
    rw [if_neg (by decide), if_neg (by decide), if_neg (by decide),
        if_neg (by decide), if_neg (by decide), if_neg (by decide),
        if_neg (by decide), if_neg (by decide), if_neg (by decide),
        if_neg (by decide), if_neg (by decide), if_pos (by decide)]
    rw [if_neg h]

/-- Witness for C10: 38;5;300 leaves the foreground at the default and
the trailing parameter 1 still sets bold. -/
theorem claim10_extended_color_witness :
    (processSGR initState [38, 5, 300, 1]).currentFg = ⟨235, 219, 178⟩ ∧
    (processSGR initState [38, 5, 300, 1]).bold = true := by
  have h := claim10_extended_color_out_of_range initState 300 [1] (by decide)
  rw [h.1]
  exact ⟨by decide, by decide⟩

/-- C9: resizing 80x24 to 40x24 and back to 80x24 preserves the leftmost
40 columns of every row cell for cell, and leaves columns 40-79 of every
row holding default cells. -/
theorem claim9_resize_roundtrip (s : TermState) (hr : s.rows = 24)
    (hc : s.cols = 80) :
    (resizeBuffer (resizeBuffer s 24 40) 24 80).rows = 24 ∧
    (resizeBuffer (resizeBuffer s 24 40) 24 80).cols = 80 ∧
    (∀ y x : Int, 0 ≤ y → y < 24 → 0 ≤ x → x < 40 →
      (resizeBuffer (resizeBuffer s 24 40) 24 80).buffer y x = s.buffer y x) ∧
    (∀ y x : Int, 0 ≤ y → y < 24 → 40 ≤ x → x < 80 →
      (resizeBuffer (resizeBuffer s 24 40) 24 80).buffer y x =
        TermChar.mkDefault) := by
  refine ⟨rfl, rfl, ?_, ?_⟩
  · intro y x hy0 hy hx0 hx
    simp only [resizeBuffer, hr, hc]
    rw [if_pos (by constructor <;> omega), if_pos (by constructor <;> omega)]
  · intro y x hy0 hy hx0 hx
    simp only [resizeBuffer, hr, hc]
    rw [if_neg (by omega)]

/-- Witness for C9: the round trip on the freshly initialized state keeps
cell (0,0) and leaves cell (0,79) default. -/
theorem claim9_resize_roundtrip_witness :
    (resizeBuffer (resizeBuffer initState 24 40) 24 80).buffer 0 0 =
      initState.buffer 0 0 ∧
    (resizeBuffer (resizeBuffer initState 24 40) 24 80).buffer 0 79 =
      TermChar.mkDefault := by
  have h := claim9_resize_roundtrip initState rfl rfl
  exact ⟨h.2.2.1 0 0 (by decide) (by decide) (by decide) (by decide),
         h.2.2.2 0 79 (by decide) (by decide) (by decide) (by decide)⟩

/-- Applying SGR reset is one state update: foreground and background
return to the defaults and the three flags clear. -/
lemma processSGR_reset (t : TermState) :
    processSGR t [0] =
      { t with currentFg := t.defaultFg, currentBg := t.defaultBg, bold := false, italic := false, underline := false } := by
  rw [processSGR.eq_def]; norm_num; rw [processSGR.eq_def]

/-- A run of bold/italic/underline setters and clearers never touches
the colors. -/
lemma processSGR_flags_aux (mids : List Int) (s : TermState)
    (h : ∀ p ∈ mids, p = 1 ∨ p = 3 ∨ p = 4 ∨ p = 22 ∨ p = 23 ∨ p = 24) :
    (processSGR s mids).currentFg = s.currentFg ∧
    (processSGR s mids).currentBg = s.currentBg ∧
    (processSGR s mids).defaultFg = s.defaultFg ∧
    (processSGR s mids).defaultBg = s.defaultBg := by
  induction mids generalizing s with
  | nil => simp [processSGR]
  | cons p rest ih =>
    have hrest : ∀ q ∈ rest, q = 1 ∨ q = 3 ∨ q = 4 ∨ q = 22 ∨ q = 23 ∨ q = 24 :=
      fun q hq => h q (List.mem_cons_of_mem _ hq)
    rcases h p (List.mem_cons_self p rest) with hp | hp | hp | hp | hp | hp <;>
      subst hp <;> rw [processSGR.eq_def] <;> norm_num <;>
      simpa using ih _ hrest

/-- C8: SGR reset, then any run of bold/italic/underline setters and
clearers (1, 3, 4, 22, 23, 24), then SGR reset again, leaves the
attribute state (current foreground, current background, bold, italic,
underline) exactly at the defaults. -/
theorem claim8_sgr_reset_roundtrip (s : TermState) (mids : List Int)
    (h : ∀ p ∈ mids, p = 1 ∨ p = 3 ∨ p = 4 ∨ p = 22 ∨ p = 23 ∨ p = 24) :
    (processSGR (processSGR (processSGR s [0]) mids) [0]).currentFg =
      s.defaultFg ∧
    (processSGR (processSGR (processSGR s [0]) mids) [0]).currentBg =
      s.defaultBg ∧
    (processSGR (processSGR (processSGR s [0]) mids) [0]).bold = false ∧
    (processSGR (processSGR (processSGR s [0]) mids) [0]).italic = false ∧
    (processSGR (processSGR (processSGR s [0]) mids) [0]).underline = false := by
  have haux := processSGR_flags_aux mids (processSGR s [0]) h
  rw [processSGR_reset (processSGR (processSGR s [0]) mids)]
  refine ⟨?_, ?_, rfl, rfl, rfl⟩
  · show (processSGR (processSGR s [0]) mids).defaultFg = s.defaultFg
    rw [haux.2.2.1, processSGR_reset]
  · show (processSGR (processSGR s [0]) mids).defaultBg = s.defaultBg
    rw [haux.2.2.2, processSGR_reset]

/-- Witness for C8: reset, bold+italic, reset on the initial state ends
with default colors and clear flags. -/
theorem claim8_sgr_reset_roundtrip_witness :
    (processSGR (processSGR (processSGR initState [0]) [1, 3]) [0]).currentFg =
      ⟨235, 219, 178⟩ ∧
    (processSGR (processSGR (processSGR initState [0]) [1, 3]) [0]).bold =
      false := by
  have h := claim8_sgr_reset_roundtrip initState [1, 3] (by decide)
  exact ⟨h.1, h.2.2.1⟩

/-- lineFeedChar never changes the parser state. -/
lemma lineFeedChar_escapeState (s : TermState) :
    (lineFeedChar s).escapeState = s.escapeState := by
  simp only [lineFeedChar, scrollUp]
  split_ifs <;> rfl

/-- tabChar never changes the parser state. -/
lemma tabChar_escapeState (s : TermState) :
    (tabChar s).escapeState = s.escapeState := by
  simp only [tabChar, scrollUp]
  split_ifs <;> rfl

/-- putPrintable never changes the parser state. -/
lemma putPrintable_escapeState (s : TermState) (c : Nat) :
    (putPrintable s c).escapeState = s.escapeState := by
  simp only [putPrintable, scrollUp, setCell]
  split_ifs <;> rfl

/-- processRegularChar never changes the parser state. -/
lemma processRegularChar_escapeState (s : TermState) (c : Nat) :
    (processRegularChar s c).escapeState = s.escapeState := by
  simp only [processRegularChar]
  split_ifs <;>
    first
      | rfl
      | exact lineFeedChar_escapeState s
      | exact tabChar_escapeState s
      | exact putPrintable_escapeState s c

/-- C1 counterexample: in a fresh 24-row screen, two consecutive line
feeds move the cursor down only one row in total — the second line feed
of the run is swallowed by the pending-newline flag, so it does not
advance the cursor by one row as the claim requires. -/
theorem claim1_linefeed_counterexample :
    initState.rows = 24 ∧ initState.cursorY = 0 ∧
    (processChar initState 10).cursorY = 1 ∧
    (processChar (processChar initState 10) 10).cursorY = 1 := by
  exact ⟨rfl, rfl, by decide, by decide⟩

/-- C1 amended: a line feed processed in Ground state with the
pending-newline flag clear advances the cursor exactly one row
(scrolling the grid when the cursor is on the bottom row), resets the
column to 0, changes no cells (beyond the scroll) and sets the flag; a
line feed arriving with the flag already set (the second of a
consecutive run) only clears the flag and changes nothing else. -/
theorem claim1_linefeed_amended (s : TermState)
    (hg : s.escapeState = .Ground) :
    (s.pendingNewline = false → s.cursorY + 1 < s.rows →
      (processChar s 10).cursorY = s.cursorY + 1 ∧
      (processChar s 10).cursorX = 0 ∧
      (processChar s 10).buffer = s.buffer ∧
      (processChar s 10).pendingNewline = true) ∧
    (s.pendingNewline = false → s.rows ≤ s.cursorY + 1 →
      (processChar s 10).cursorY = s.rows - 1 ∧
      (processChar s 10).cursorX = 0 ∧
      (processChar s 10).buffer = (scrollUp s).buffer ∧
      (processChar s 10).pendingNewline = true) ∧
    (s.pendingNewline = true →
      processChar s 10 = { s with pendingNewline := false }) := by
  have hred : processChar s 10 = lineFeedChar s := by
    unfold processChar
    rw [hg]
    show processRegularChar s 10 = lineFeedChar s
    unfold processRegularChar
    rw [if_neg (by decide), if_pos rfl]
  rw [hred]
  unfold lineFeedChar
  refine ⟨?_, ?_, ?_⟩
  · intro hp hlt
    rw [if_neg (by simp [hp])]
    have hnot : ¬(s.cursorY + 1 ≥ s.rows) := by omega
    simp [hnot]
  · intro hp hge
    rw [if_neg (by simp [hp])]
    have hyes : s.cursorY + 1 ≥ s.rows := by omega
    simp [hyes, scrollUp]
  · intro hp
    rw [if_pos (by simp [hp])]

/-- Witness for C1 amended: the first line feed on the fresh state moves
the cursor to row 1, column 0, changes no cells and sets the flag. -/
theorem claim1_linefeed_amended_witness :
    (processChar initState 10).cursorY = 1 ∧
    (processChar initState 10).cursorX = 0 ∧
    (processChar initState 10).buffer = initState.buffer ∧
    (processChar initState 10).pendingNewline = true := by
  have h := (claim1_linefeed_amended initState rfl).1 rfl (by decide)
  exact h

/-- C4 counterexample: from the reachable state right after an ESC byte,
feeding the percent character leaves the parser in the Escape state, so
it is not true that every character other than the bracket characters
returns the parser to Ground. -/
theorem claim4_escape_percent_counterexample :
    (processChar initState 27).escapeState = EscapeState.Escape ∧
    (processChar (processChar initState 27) 37).escapeState =
      EscapeState.Escape := by
  exact ⟨by decide, by decide⟩

/-- C4 amended: in the Escape state, a left bracket moves to Bracket, a
right bracket moves to OSC (clearing the parameter buffer), the percent
character is consumed with the parser staying in Escape, and every other
character returns the parser to Ground and is processed as a regular
character. -/
theorem claim4_escape_amended (s : TermState) (c : Nat)
    (hg : s.escapeState = .Escape) :
    (c ≠ 91 → c ≠ 93 → c ≠ 37 →
      processChar s c = processRegularChar { s with escapeState := .Ground } c ∧
      (processChar s c).escapeState = .Ground) ∧
    (c = 37 → processChar s c = s) ∧
    (c = 91 → processChar s c = { s with escapeState := .Bracket }) ∧
    (c = 93 →
      processChar s c = { s with escapeState := .OSC, escapeSequence := [] }) := by
  have hred : processChar s c =
      (if c = 91 then { s with escapeState := .Bracket }
       else if c = 93 then { s with escapeState := .OSC, escapeSequence := [] }
       else if c = 37 then s
       else processRegularChar { s with escapeState := .Ground } c) := by
    unfold processChar
    rw [hg]
  rw [hred]
  refine ⟨?_, ?_, ?_, ?_⟩
  · intro h91 h93 h37
    rw [if_neg h91, if_neg h93, if_neg h37]
    exact ⟨rfl, by rw [processRegularChar_escapeState]⟩
  · intro h; subst h
    rw [if_neg (by decide), if_neg (by decide), if_pos rfl]
  · intro h; subst h
    rw [if_pos rfl]
  · intro h; subst h
    rw [if_neg (by decide), if_pos rfl]

/-- Witness for C4 amended: after ESC, the letter A returns the parser
to Ground and is printed as a regular character at the origin. -/
theorem claim4_escape_amended_witness :
    (processChar (processChar initState 27) 65).escapeState =
      EscapeState.Ground ∧
    (processChar (processChar initState 27) 65).buffer 0 0 =
      ⟨65, ⟨235, 219, 178⟩, ⟨40, 40, 40⟩, false, false, false⟩ := by
  have h := (claim4_escape_amended (processChar initState 27) 65 (by decide)).1
    (by decide) (by decide) (by decide)
  exact ⟨h.2, by rw [h.1]; decide⟩

/-- The failing run for the cursor-bounds invariant: move the cursor to
row 24, column 80 (CUP), save it (CSI s), resize the buffer to 1x1, then
restore it (CSI u). -/
def saveResizeRestoreTrace : TermState :=
  processOutput
    (resizeBuffer
      (processOutput initState [27, 91, 50, 52, 59, 56, 48, 72, 27, 91, 115])
      1 1)
    [27, 91, 117]

/-- C2: the cursor-bounds invariant is violated by the code.  CSI u
copies the saved position without clamping, so after saving (23,79),
resizing to a 1x1 grid and restoring, the cursor sits at (23,79) far
outside the 1x1 grid. -/
theorem claim2_cursor_bounds_violation :
    saveResizeRestoreTrace.rows = 1 ∧
    saveResizeRestoreTrace.cols = 1 ∧
    saveResizeRestoreTrace.cursorY = 23 ∧
    saveResizeRestoreTrace.cursorX = 79 ∧
    ¬(saveResizeRestoreTrace.cursorY < saveResizeRestoreTrace.rows ∧
      saveResizeRestoreTrace.cursorX < saveResizeRestoreTrace.cols) := by
  refine ⟨by decide, by decide, by decide, by decide, by decide⟩

/-- The failing run for the wide-placeholder claim: move the cursor to
the last column (CSI 80 G), then write U+4E00 as the bytes E4 B8 80. -/
def wideLastColumnTrace : TermState :=
  processOutput initState [27, 91, 56, 48, 71, 228, 184, 128]

/-- C3 counterexample: a wide character written at the last column gets
no blank placeholder and the cursor does not advance two columns —
the glyph lands in the last cell and the cursor wraps to column 0 of the
next row, whose cells are untouched. -/
theorem claim3_wide_last_column_counterexample :
    wideLastColumnTrace.cursorY = 1 ∧
    wideLastColumnTrace.cursorX = 0 ∧
    wideLastColumnTrace.buffer 0 79 =
      ⟨0x4E00, ⟨235, 219, 178⟩, ⟨40, 40, 40⟩, false, false, false⟩ ∧
    wideLastColumnTrace.buffer 1 0 = TermChar.mkDefault ∧
    wideLastColumnTrace.buffer 1 1 = TermChar.mkDefault := by
  refine ⟨by decide, by decide, by decide, by decide, by decide⟩

/-- C3 amended: a decoded scalar in the BMP wide ranges (CJK unified
ideographs and symbols, Hangul, CJK compatibility, fullwidth forms)
occupies the current cell with current attributes; when the cursor is
not at the last column a space is written into the next cell's
character field and the cursor advances two columns (wrapping to the
next row when that reaches the row width); at the last column no
placeholder is written anywhere — only the glyph cell changes — and the
cursor wraps to column 0 of the next row.  Scalars in the CJK extension
range 0x20000-0x2FFFF are never treated as wide because the width test
sees only the first UTF-16 code unit, a high surrogate. -/
theorem claim3_wide_amended (s : TermState) (u : Nat)
    (hw : (0x3000 ≤ u ∧ u ≤ 0x9FFF) ∨ (0xAC00 ≤ u ∧ u ≤ 0xD7AF) ∨
          (0xF900 ≤ u ∧ u ≤ 0xFAFF) ∨ (0xFF00 ≤ u ∧ u ≤ 0xFFEF))
    (hxc : s.cursorX < s.cols)
    (hrow : s.cursorY + 1 < s.rows) :
    (processUtf8Sequence s (utf8Encode u)).buffer s.cursorY s.cursorX =
      ⟨u, s.currentFg, s.currentBg, s.bold, s.italic, s.underline⟩ ∧
    (s.cursorX + 1 < s.cols →
      (processUtf8Sequence s (utf8Encode u)).buffer s.cursorY (s.cursorX + 1) =
        { s.buffer s.cursorY (s.cursorX + 1) with character := 32 } ∧
      (s.cursorX + 2 < s.cols →
        (processUtf8Sequence s (utf8Encode u)).cursorX = s.cursorX + 2 ∧
        (processUtf8Sequence s (utf8Encode u)).cursorY = s.cursorY) ∧
      (s.cursorX + 2 = s.cols →
        (processUtf8Sequence s (utf8Encode u)).cursorX = 0 ∧
        (processUtf8Sequence s (utf8Encode u)).cursorY = s.cursorY + 1)) ∧
    (s.cursorX + 1 = s.cols →
      (processUtf8Sequence s (utf8Encode u)).cursorX = 0 ∧
      (processUtf8Sequence s (utf8Encode u)).cursorY = s.cursorY + 1 ∧
      (∀ y x : Int, ¬(y = s.cursorY ∧ x = s.cursorX) →
        (processUtf8Sequence s (utf8Encode u)).buffer y x = s.buffer y x)) ∧
    (∀ v, 0x20000 ≤ v → v ≤ 0x2FFFF → isWideB (utf16First v) = false) := by
  have henc : utf8Encode u =
      [0xE0 + u / 0x1000, 0x80 + u / 0x40 % 0x40, 0x80 + u % 0x40] := by
    unfold utf8Encode
    rw [if_neg (by omega), if_pos (by omega)]
  have hne : utf8Encode u ≠ [] := by rw [henc]; simp
  have hdec : utf8DecodeScalar (utf8Encode u) = u :=
    utf8_decode_encode u (by omega) (by omega) (by omega)
  have hch : utf16First (utf8DecodeScalar (utf8Encode u)) = u := by
    rw [hdec]; unfold utf16First; rw [if_pos (by omega)]
  have hwide : isWideB u = true := by
    simp only [isWideB, decide_eq_true_eq]
    omega
  have hd1 : s.cursorX + 1 ≠ s.cursorX := by omega
  have hd2 : s.cursorX ≠ s.cursorX + 1 := by omega
  unfold processUtf8Sequence
  rw [if_neg hne, hch]
  simp only [hwide, true_and]
  refine ⟨?_, ?_, ?_, ?_⟩
  · by_cases hP : s.cursorX + 1 < s.cols
    · rw [if_pos hP]
      by_cases hW : s.cursorX + 1 + 1 ≥ s.cols
      · rw [if_pos hW]
        rw [if_neg (by dsimp only; omega)]
        dsimp only
        simp [setCell, hd2]
      · rw [if_neg hW]
        dsimp only
        simp [setCell, hd2]
    · rw [if_neg hP]
      rw [if_pos (by dsimp only; omega)]
      rw [if_neg (by dsimp only; omega)]
      dsimp only
      simp [setCell]
  · intro hP
    rw [if_pos hP]
    by_cases hW : s.cursorX + 1 + 1 ≥ s.cols
    · rw [if_pos hW]
      rw [if_neg (by dsimp only; omega)]
      dsimp only
      refine ⟨?_, by omega, by omega⟩
      simp [setCell, hd1]
    · rw [if_neg hW]
      dsimp only
      refine ⟨?_, by omega, by omega⟩
      simp [setCell, hd1]
  · intro hP
    rw [if_neg (show ¬(s.cursorX + 1 < s.cols) from by omega)]
    rw [if_pos (by dsimp only; omega)]
    rw [if_neg (by dsimp only; omega)]
    dsimp only
    refine ⟨by trivial, by trivial, ?_⟩
    intro y x hyx
    simp [setCell, hyx]
  · intro v hv1 hv2
    have hsur : utf16First v = 0xD800 + (v - 0x10000) / 0x400 := by
      unfold utf16First; rw [if_neg (by omega)]
    rw [hsur]
    unfold isWideB
    exact decide_eq_false (by omega)

/-- Witness for C3 amended: the ideograph U+4E00 written at the origin
of the fresh screen stores the glyph at (0,0), a space placeholder at
(0,1), and moves the cursor to column 2 of row 0. -/
theorem claim3_wide_amended_witness :
    (processUtf8Sequence initState (utf8Encode 0x4E00)).buffer 0 0 =
      ⟨0x4E00, ⟨235, 219, 178⟩, ⟨40, 40, 40⟩, false, false, false⟩ ∧
    (processUtf8Sequence initState (utf8Encode 0x4E00)).buffer 0 1 =
      { initState.buffer 0 1 with character := 32 } ∧
    (processUtf8Sequence initState (utf8Encode 0x4E00)).cursorX = 2 ∧
    (processUtf8Sequence initState (utf8Encode 0x4E00)).cursorY = 0 := by
  have h := claim3_wide_amended initState 0x4E00
    (Or.inl ⟨by decide, by decide⟩) (by decide) (by decide)
  have h2 := h.2.1 (by decide)
  have h3 := h2.2.1 (by decide)
  exact ⟨h.1, h2.1, h3.1, h3.2⟩

/-- processUtf8Sequence never reads or writes the UTF-8 accumulation
fields, so they can be moved across it. -/
lemma processUtf8Sequence_utf8Congr (s : TermState) (a : Int)
    (l bytes : List Nat) :
    processUtf8Sequence { s with utf8Remaining := a, utf8Buffer := l } bytes =
      { processUtf8Sequence s bytes with utf8Remaining := a, utf8Buffer := l } := by
  simp only [processUtf8Sequence, setCell, scrollUp]
  split_ifs <;> rfl

/-- A continuation byte with no pending sequence falls through to
processChar unchanged. -/
lemma utf8_cont_no_pending (s : TermState) (b : Nat) (hr : s.utf8Remaining = 0)
    (hb1 : 0x80 ≤ b) (hb2 : b ≤ 0xBF) :
    processOutput s [b] = processChar s b := by
  have hm := byteMaskTable b (by omega)
  unfold processOutput
  rw [if_neg (by omega)]
  show processOutputByte s b = processChar s b
  unfold processOutputByte
  rw [if_pos (hm.1.mpr (by omega)),
      if_neg (by rw [hm.2.2.1]; omega),
      if_neg (by rw [hm.2.2.2.1]; omega),
      if_neg (by rw [hm.2.2.2.2]; omega)]

/-- A non-continuation byte arriving mid-sequence discards the buffered
bytes and is reprocessed from scratch. -/
lemma utf8_abort_reprocess (s : TermState) (b : Nat)
    (hr : 0 < s.utf8Remaining) (hnc : ¬(b &&& 0xC0 = 0x80)) :
    processOutput s [b] = processOutput (clearUtf8 s) [b] := by
  conv_lhs => unfold processOutput
  conv_rhs => unfold processOutput
  rw [if_pos (by omega), if_neg hnc, if_neg (by simp [clearUtf8])]
  rfl

/-- processOutputByte on a UTF-8 lead byte starts the matching 2/3/4-byte
accumulation. -/
lemma processOutputByte_lead (s : TermState) (b : Nat)
    (hb : 0xC0 ≤ b ∧ b ≤ 0xF7) :
    processOutputByte s b =
      { s with utf8Remaining := if b ≤ 0xDF then 1 else if b ≤ 0xEF then 2 else 3,
               utf8Buffer := [b] } := by
  have hm := byteMaskTable b (by omega)
  unfold processOutputByte
  rw [if_pos (hm.1.mpr (by omega))]
  by_cases h2 : b ≤ 0xDF
  · rw [if_pos (hm.2.2.1.mpr ⟨by omega, h2⟩), if_pos h2]
  · by_cases h3 : b ≤ 0xEF
    · rw [if_neg (by rw [hm.2.2.1]; omega),
          if_pos (hm.2.2.2.1.mpr ⟨by omega, h3⟩), if_neg h2, if_pos h3]
    · rw [if_neg (by rw [hm.2.2.1]; omega),
          if_neg (by rw [hm.2.2.2.1]; omega),
          if_pos (hm.2.2.2.2.mpr ⟨by omega, by omega⟩), if_neg h2, if_neg h3]

/-- Feeding a lead byte, whatever the pending state, restarts the
accumulation with just that byte. -/
lemma processOutput_lead_step (s : TermState) (b : Nat) (rest : List Nat)
    (hb : 0xC0 ≤ b ∧ b ≤ 0xF7) :
    processOutput s (b :: rest) =
      processOutput
        { s with utf8Remaining := if b ≤ 0xDF then 1 else if b ≤ 0xEF then 2 else 3,
                 utf8Buffer := [b] } rest := by
  have hm := byteMaskTable b (by omega)
  conv_lhs => unfold processOutput
  by_cases hr : s.utf8Remaining > 0
  · rw [if_pos hr, if_neg (by rw [hm.2.1]; omega)]
    rw [show processOutputByte { s with utf8Remaining := 0, utf8Buffer := [] } b =
        { s with utf8Remaining := if b ≤ 0xDF then 1 else if b ≤ 0xEF then 2 else 3, utf8Buffer := [b] } from by
      rw [processOutputByte_lead _ b hb]]
  · rw [if_neg hr, processOutputByte_lead _ b hb]

/-- A continuation byte that does not yet complete the sequence is
appended to the buffer. -/
lemma processOutput_mid_cont (s : TermState) (b : Nat) (rest : List Nat)
    (hr : 1 < s.utf8Remaining) (hb : 0x80 ≤ b ∧ b ≤ 0xBF) :
    processOutput s (b :: rest) =
      processOutput
        { s with utf8Buffer := s.utf8Buffer ++ [b],
                 utf8Remaining := s.utf8Remaining - 1 } rest := by
  have hm := byteMaskTable b (by omega)
  conv_lhs => unfold processOutput
  rw [if_pos (by omega), if_pos (hm.2.1.mpr hb)]
  dsimp only
  rw [if_neg (by omega)]

/-- The final continuation byte completes the sequence: the buffered
bytes are dispatched to processUtf8Sequence and the buffer is cleared. -/
lemma processOutput_last_cont (s : TermState) (b : Nat) (rest : List Nat)
    (hr : s.utf8Remaining = 1) (hb : 0x80 ≤ b ∧ b ≤ 0xBF) :
    processOutput s (b :: rest) =
      processOutput
        { processUtf8Sequence
            { s with utf8Remaining := s.utf8Remaining - 1,
                     utf8Buffer := s.utf8Buffer ++ [b] }
            (s.utf8Buffer ++ [b]) with utf8Buffer := [] } rest := by
  have hm := byteMaskTable b (by omega)
  conv_lhs => unfold processOutput
  rw [if_pos (by omega), if_pos (hm.2.1.mpr hb)]
  dsimp only
  rw [if_pos (by omega)]

/-- processOutput of the empty chunk is the identity. -/
lemma processOutput_nil (s : TermState) : processOutput s [] = s := rfl

/-- Feeding a well-formed 2-byte encoding from any state dispatches
exactly that sequence. -/
lemma utf8_feed_two (s : TermState) (u : Nat) (h1 : 0x80 ≤ u)
    (h2 : u < 0x800) :
    processOutput s (utf8Encode u) =
      clearUtf8 (processUtf8Sequence (clearUtf8 s) (utf8Encode u)) := by
  have henc : utf8Encode u = [0xC0 + u / 0x40, 0x80 + u % 0x40] := by
    unfold utf8Encode; rw [if_pos (by omega)]
  rw [henc]
  rw [processOutput_lead_step s _ _ ⟨by omega, by omega⟩]
  rw [if_pos (show 0xC0 + u / 0x40 ≤ 0xDF by omega)]
  rw [processOutput_last_cont _ _ _ rfl ⟨by omega, by omega⟩]
  rw [processOutput_nil]
  simp only [clearUtf8, processUtf8Sequence_utf8Congr]
  rfl

/-- Feeding a well-formed 3-byte encoding from any state dispatches
exactly that sequence. -/
lemma utf8_feed_three (s : TermState) (u : Nat) (h1 : 0x800 ≤ u)
    (h2 : u < 0x10000) :
    processOutput s (utf8Encode u) =
      clearUtf8 (processUtf8Sequence (clearUtf8 s) (utf8Encode u)) := by
  have henc : utf8Encode u =
      [0xE0 + u / 0x1000, 0x80 + u / 0x40 % 0x40, 0x80 + u % 0x40] := by
    unfold utf8Encode; rw [if_neg (by omega), if_pos (by omega)]
  rw [henc]
  rw [processOutput_lead_step s _ _ ⟨by omega, by omega⟩]
  rw [if_neg (show ¬(0xE0 + u / 0x1000 ≤ 0xDF) by omega),
      if_pos (show 0xE0 + u / 0x1000 ≤ 0xEF by omega)]
  rw [processOutput_mid_cont _ _ _ (by norm_num) ⟨by omega, by omega⟩]
  rw [processOutput_last_cont _ _ _ rfl ⟨by omega, by omega⟩]
  rw [processOutput_nil]
  simp only [clearUtf8, processUtf8Sequence_utf8Congr]
  rfl

/-- Feeding a well-formed 4-byte encoding from any state dispatches
exactly that sequence. -/
lemma utf8_feed_four (s : TermState) (u : Nat) (h1 : 0x10000 ≤ u)
    (h2 : u ≤ 0x10FFFF) :
    processOutput s (utf8Encode u) =
      clearUtf8 (processUtf8Sequence (clearUtf8 s) (utf8Encode u)) := by
  have henc : utf8Encode u =
      [0xF0 + u / 0x40000, 0x80 + u / 0x1000 % 0x40,
       0x80 + u / 0x40 % 0x40, 0x80 + u % 0x40] := by
    unfold utf8Encode; rw [if_neg (by omega), if_neg (by omega)]
  rw [henc]
  rw [processOutput_lead_step s _ _ ⟨by omega, by omega⟩]
  rw [if_neg (show ¬(0xF0 + u / 0x40000 ≤ 0xDF) by omega),
      if_neg (show ¬(0xF0 + u / 0x40000 ≤ 0xEF) by omega)]
  rw [processOutput_mid_cont _ _ _ (by norm_num) ⟨by omega, by omega⟩]
  rw [processOutput_mid_cont _ _ _ (by norm_num) ⟨by omega, by omega⟩]
  rw [processOutput_last_cont _ _ _ rfl ⟨by omega, by omega⟩]
  rw [processOutput_nil]
  simp only [clearUtf8, processUtf8Sequence_utf8Congr]
  rfl

/-- C5: the UTF-8 decoder recovers locally from malformed input.  A
continuation byte with no pending sequence is reprocessed as a fresh
single byte; a non-continuation byte with a sequence pending discards
the buffered bytes and is reprocessed as a fresh decision; and from any
decoder state, a well-formed multi-byte encoding of a scalar is
dispatched as exactly that sequence, which decodes back to the scalar —
no decode error is fatal. -/
theorem claim5_utf8_recovery :
    (∀ s : TermState, ∀ b : Nat, s.utf8Remaining = 0 → 0x80 ≤ b → b ≤ 0xBF →
        processOutput s [b] = processChar s b) ∧
    (∀ s : TermState, ∀ b : Nat, 0 < s.utf8Remaining →
        ¬(b &&& 0xC0 = 0x80) →
        processOutput s [b] = processOutput (clearUtf8 s) [b]) ∧
    (∀ s : TermState, ∀ u : Nat, 0x80 ≤ u → u ≤ 0x10FFFF →
        ¬(0xD800 ≤ u ∧ u ≤ 0xDFFF) →
        processOutput s (utf8Encode u) =
          clearUtf8 (processUtf8Sequence (clearUtf8 s) (utf8Encode u)) ∧
        utf8DecodeScalar (utf8Encode u) = u) := by
  refine ⟨utf8_cont_no_pending, utf8_abort_reprocess, ?_⟩
  intro s u h1 h2 h3
  refine ⟨?_, utf8_decode_encode u h1 h2 h3⟩
  by_cases hc1 : u < 0x800
  · exact utf8_feed_two s u h1 hc1
  · by_cases hc2 : u < 0x10000
    · exact utf8_feed_three s u (by omega) hc2
    · exact utf8_feed_four s u (by omega) h2

/-- Witness for C5: a lone continuation byte on the fresh state is
handed to processChar; the ideograph U+4E00 still decodes to the right
glyph even when a junk lead byte is pending. -/
theorem claim5_utf8_recovery_witness :
    processOutput initState [0x85] = processChar initState 0x85 ∧
    (processOutput { initState with utf8Remaining := 1, utf8Buffer := [0xC3] }
        (utf8Encode 0x4E00)).buffer 0 0 =
      ⟨0x4E00, ⟨235, 219, 178⟩, ⟨40, 40, 40⟩, false, false, false⟩ ∧
    utf8DecodeScalar (utf8Encode 0x4E00) = 0x4E00 := by
  have h1 := claim5_utf8_recovery.1 initState 0x85 rfl (by decide) (by decide)
  have h3 := claim5_utf8_recovery.2.2
    { initState with utf8Remaining := 1, utf8Buffer := [0xC3] } 0x4E00
    (by decide) (by decide) (by decide)
  refine ⟨h1, ?_, h3.2⟩
  rw [h3.1]
  decide

/-- putPrintable away from the last column: one cell is written and the
cursor advances one column. -/
lemma putPrintable_no_wrap (s : TermState) (c : Nat)
    (hw : s.cursorX + 1 < s.cols) :
    putPrintable s c =
      { s with pendingNewline := false, buffer := setCell s.buffer s.cursorY s.cursorX ⟨c, s.currentFg, s.currentBg, s.bold, s.italic, s.underline⟩, cursorX := s.cursorX + 1 } := by
  unfold putPrintable
  rw [if_neg (by dsimp only; omega)]

/-- putPrintable at the last column of a non-bottom row: the cell is
written and the cursor wraps to column 0 of the next row. -/
lemma putPrintable_wrap (s : TermState) (c : Nat)
    (hw : s.cols ≤ s.cursorX + 1) (hrow : s.cursorY + 1 < s.rows) :
    putPrintable s c =
      { s with pendingNewline := false, buffer := setCell s.buffer s.cursorY s.cursorX ⟨c, s.currentFg, s.currentBg, s.bold, s.italic, s.underline⟩, cursorX := 0, cursorY := s.cursorY + 1 } := by
  unfold putPrintable
  rw [if_pos (by dsimp only; omega), if_neg (by dsimp only; omega)]

/-- In Ground state a printable ASCII byte goes through putPrintable. -/
lemma processChar_printable (s : TermState) (c : Nat)
    (hg : s.escapeState = .Ground) (hc : 32 ≤ c ∧ c ≤ 126) :
    processChar s c = putPrintable s c := by
  unfold processChar
  rw [hg]
  show (if c = 27 then _ else processRegularChar s c) = putPrintable s c
  rw [if_neg (by omega)]
  unfold processRegularChar
  rw [if_neg (by omega), if_neg (by omega), if_neg (by omega),
      if_neg (by omega), if_neg (by omega), if_pos ⟨hc.1, by omega⟩]

/-- Writing a run of printable bytes that fits in the current row: the
cursor slides right (wrapping exactly at the row width), the written
cells hold the bytes with the current attributes, and everything else
is untouched. -/
lemma writeChars_printable_run (cs : List Nat) (s : TermState)
    (hpr : ∀ c ∈ cs, 32 ≤ c ∧ c ≤ 126)
    (hg : s.escapeState = .Ground)
    (hxlt : s.cursorX < s.cols)
    (hfit : s.cursorX + (cs.length : Int) ≤ s.cols)
    (hrow : s.cursorY + 1 < s.rows) :
    (s.cursorX + (cs.length : Int) < s.cols →
       (writeChars s cs).cursorX = s.cursorX + cs.length ∧
       (writeChars s cs).cursorY = s.cursorY) ∧
    (s.cursorX + (cs.length : Int) = s.cols →
       (writeChars s cs).cursorX = 0 ∧
       (writeChars s cs).cursorY = s.cursorY + 1) ∧
    (∀ j : Nat, j < cs.length →
       (writeChars s cs).buffer s.cursorY (s.cursorX + (j : Int)) =
         ⟨cs.getD j 0, s.currentFg, s.currentBg, s.bold, s.italic, s.underline⟩) ∧
    (∀ y x : Int, (y ≠ s.cursorY ∨ x < s.cursorX ∨ s.cursorX + (cs.length : Int) ≤ x) →
       (writeChars s cs).buffer y x = s.buffer y x) ∧
    (writeChars s cs).escapeState = .Ground ∧
    (writeChars s cs).rows = s.rows ∧
    (writeChars s cs).cols = s.cols ∧
    (writeChars s cs).currentFg = s.currentFg ∧
    (writeChars s cs).currentBg = s.currentBg ∧
    (writeChars s cs).bold = s.bold ∧
    (writeChars s cs).italic = s.italic ∧
    (writeChars s cs).underline = s.underline := by
  induction cs generalizing s with
  | nil =>
    have hid : writeChars s ([] : List Nat) = s := rfl
    rw [hid]
    exact ⟨fun h => ⟨by simp, rfl⟩,
      fun h => by exfalso; simp at h; omega,
      fun j hj => absurd hj (Nat.not_lt_zero j),
      fun y x h => rfl, hg, rfl, rfl, rfl, rfl, rfl, rfl, rfl⟩
  | cons c rest ih =>
    have hid : writeChars s (c :: rest) = writeChars (processChar s c) rest := rfl
    rw [hid, processChar_printable s c hg (hpr c (by simp))]
    by_cases hw : s.cols ≤ s.cursorX + 1
    · have hr0 : rest = [] := by
        have hlen : rest.length = 0 := by
          simp only [List.length_cons] at hfit; omega
        exact List.length_eq_zero.mp hlen
      subst hr0
      rw [putPrintable_wrap s c hw hrow]
      have hid2 : ∀ t : TermState, writeChars t ([] : List Nat) = t := fun t => rfl
      rw [hid2]
      refine ⟨fun h => absurd h (by simp only [List.length_cons]; omega),
              fun h => ⟨rfl, rfl⟩, ?_, ?_, hg, rfl, rfl, rfl, rfl, rfl, rfl, rfl⟩
      · intro j hj
        have hj0 : j = 0 := by simpa using hj
        subst hj0
        simp [setCell]
      · intro y x hcond
        simp only [setCell]
        rw [if_neg (by simp only [List.length_cons] at hcond; omega)]
    · push_neg at hw
      rw [putPrintable_no_wrap s c hw]
      obtain ⟨ih1, ih2, ihcells, ihelse, ihesc, ihrows, ihcols, ihfg, ihbg, ihbold, ihitalic, ihunder⟩ := ih { s with pendingNewline := false, buffer := setCell s.buffer s.cursorY s.cursorX ⟨c, s.currentFg, s.currentBg, s.bold, s.italic, s.underline⟩, cursorX := s.cursorX + 1 } (fun c' hc' => hpr c' (List.mem_cons_of_mem _ hc')) (by dsimp only; exact hg) (by dsimp only; omega) (by dsimp only; simp only [List.length_cons] at hfit; omega) (by dsimp only; omega)
      dsimp only at ih1 ih2 ihcells ihelse ihesc ihrows ihcols ihfg ihbg ihbold ihitalic ihunder
      refine ⟨?_, ?_, ?_, ?_, ihesc, ihrows, ihcols, ihfg, ihbg, ihbold, ihitalic, ihunder⟩
      · intro h
        have h' : s.cursorX + 1 + (rest.length : Int) < s.cols := by
          simp only [List.length_cons] at h; omega
        obtain ⟨e1, e2⟩ := ih1 h'
        refine ⟨?_, e2⟩
        rw [e1]
        simp only [List.length_cons]
        push_cast
        ring
      · intro h
        have h' : s.cursorX + 1 + (rest.length : Int) = s.cols := by
          simp only [List.length_cons] at h; omega
        exact ih2 h'
      · intro j hj
        cases j with
        | zero =>
          have hb := ihelse s.cursorY s.cursorX (by omega)
          simp only [Nat.cast_zero, add_zero, List.getD_cons_zero]
          rw [hb]
          simp [setCell]
        | succ i =>
          have hi : i < rest.length := by simpa using hj
          have hcell := ihcells i hi
          have hidx : s.cursorX + ((i + 1 : Nat) : Int) =
              s.cursorX + 1 + (i : Int) := by push_cast; ring
          rw [hidx, hcell]
          simp
      · intro y x hcond
        have hcond' : y ≠ s.cursorY ∨ x < s.cursorX + 1 ∨
            s.cursorX + 1 + (rest.length : Int) ≤ x := by
          simp only [List.length_cons] at hcond; omega
        rw [ihelse y x hcond']
        simp only [setCell]
        rw [if_neg (by simp only [List.length_cons] at hcond; omega)]

/-- C6: starting at column 0 of a row that is not the bottom row, a run
of n printable ASCII characters with n < cols leaves the cursor at
column n of that row and stores exactly those characters in cells
0..n-1 of the row; a run of exactly cols printable characters causes
exactly one wrap, leaving the cursor at column 0 of the next row (the
cells of the full row hold the characters). -/
theorem claim6_printable_run (s : TermState) (cs : List Nat)
    (hpr : ∀ c ∈ cs, 32 ≤ c ∧ c ≤ 126)
    (hg : s.escapeState = .Ground)
    (hx0 : s.cursorX = 0)
    (hcols : 0 < s.cols)
    (hrow : s.cursorY + 1 < s.rows) :
    ((cs.length : Int) < s.cols →
       (writeChars s cs).cursorX = cs.length ∧
       (writeChars s cs).cursorY = s.cursorY ∧
       (∀ j : Nat, j < cs.length →
          (writeChars s cs).buffer s.cursorY (j : Int) =
            ⟨cs.getD j 0, s.currentFg, s.currentBg, s.bold, s.italic, s.underline⟩)) ∧
    ((cs.length : Int) = s.cols →
       (writeChars s cs).cursorX = 0 ∧
       (writeChars s cs).cursorY = s.cursorY + 1 ∧
       (∀ j : Nat, j < cs.length →
          (writeChars s cs).buffer s.cursorY (j : Int) =
            ⟨cs.getD j 0, s.currentFg, s.currentBg, s.bold, s.italic, s.underline⟩)) := by
  constructor
  · intro hlen
    have h := writeChars_printable_run cs s hpr hg (by omega) (by omega) hrow
    refine ⟨?_, (h.1 (by omega)).2, ?_⟩
    · rw [(h.1 (by omega)).1, hx0, zero_add]
    · intro j hj
      have hc := h.2.2.1 j hj
      rwa [hx0, zero_add] at hc
  · intro hlen
    have h := writeChars_printable_run cs s hpr hg (by omega) (by omega) hrow
    refine ⟨(h.2.1 (by omega)).1, (h.2.1 (by omega)).2, ?_⟩
    intro j hj
    have hc := h.2.2.1 j hj
    rwa [hx0, zero_add] at hc

/-- Witness for C6: writing "Hi" on the fresh screen leaves the cursor
at column 2 with the two glyphs in cells (0,0) and (0,1); writing a row
of 80 letters A wraps exactly once to (1,0). -/
theorem claim6_printable_run_witness :
    (writeChars initState [72, 105]).cursorX = 2 ∧
    (writeChars initState [72, 105]).cursorY = 0 ∧
    (writeChars initState [72, 105]).buffer 0 0 =
      ⟨72, ⟨235, 219, 178⟩, ⟨40, 40, 40⟩, false, false, false⟩ ∧
    (writeChars initState [72, 105]).buffer 0 1 =
      ⟨105, ⟨235, 219, 178⟩, ⟨40, 40, 40⟩, false, false, false⟩ ∧
    (writeChars initState (List.replicate 80 65)).cursorX = 0 ∧
    (writeChars initState (List.replicate 80 65)).cursorY = 1 := by
  have h1 := (claim6_printable_run initState [72, 105] (by decide) rfl rfl
    (by decide) (by decide)).1 (by decide)
  have h2 := (claim6_printable_run initState (List.replicate 80 65)
    (by intro c hc; simp at hc; omega) rfl rfl (by decide) (by decide)).2
    (by decide)
  refine ⟨h1.1, h1.2.1, ?_, ?_, h2.1, h2.2.1⟩
  · have := h1.2.2 0 (by decide)
    simpa using this
  · have := h1.2.2 1 (by decide)
    simpa using this

end Korzeterm
